import Mathlib

/-!
Verification of the ReactOS registry syscall layer (ntoskrnl/cm/ntfunc.c).

The definitions below are a shallow embedding of the C source: each `Nt*`
function here models the corresponding dispatcher body after handle
validation, with fallible collaborators (pre-callbacks, `HvAllocateCell`,
`CmiFlushRegistryHive`, `CmiSaveTempHive`, ...) passed in as explicit
parameters.  Hives are modelled as association lists of cells indexed by
their cell offsets; machine words are `Nat` with explicit `% 2 ^ w` where
the code depends on bit layout.
-/

/-- NTSTATUS codes used by ntfunc.c.  `otherFailure` stands for any further
non-success code (e.g. one returned by a registered callback). -/
inductive NtStatus where
  | success
  | unsuccessful
  | cannotDelete
  | noMoreEntries
  | bufferTooSmall
  | bufferOverflow
  | objectNameNotFound
  | invalidInfoClass
  | infoLengthMismatch
  | notImplemented
  | accessDenied
  | insufficientResources
  | invalidHandle
  | otherFailure (code : Nat)
  deriving DecidableEq

/-- NT_SUCCESS: of the codes modelled here only STATUS_SUCCESS has a
non-negative severity; warnings such as STATUS_BUFFER_OVERFLOW are not
NT_SUCCESS. -/
def ntSuccess : NtStatus → Bool
  | NtStatus.success => true
  | _ => false

/-! ## NtDeleteKey (ntfunc.c lines 588-675) -/

/-- The two per-storage-class subkey counters of a CM_KEY_NODE
(`SubKeyCounts[HvStable]`, `SubKeyCounts[HvVolatile]`). -/
structure CmKeyNodeDel where
  subKeyCountStable : Nat
  subKeyCountVolatile : Nat
  deriving DecidableEq

/-- The KEY_OBJECT flag bit KO_MARKED_FOR_DELETE, the only `Flags` bit
read or written by ntfunc.c. -/
structure KeyObjectDel where
  markedForDelete : Bool
  deriving DecidableEq

/-- NtDeleteKey after handle validation: a failed pre-callback
short-circuits; otherwise, under the registry lock, a nonzero stable or
volatile subkey count yields STATUS_CANNOT_DELETE and the key object is
left alone, else KO_MARKED_FOR_DELETE is set and STATUS_SUCCESS returned.
The hive's cells are returned unchanged: NtDeleteKey itself never frees
the key cell (that happens later in the object-manager finalizer). -/
def ntDeleteKeyCore (preStatus : NtStatus) (cells : List (Nat × CmKeyNodeDel))
    (off : Nat) (obj : KeyObjectDel) :
    NtStatus × KeyObjectDel × List (Nat × CmKeyNodeDel) :=
  if ntSuccess preStatus = false then
    (preStatus, obj, cells)
  else
    let cell := (cells.lookup off).getD ⟨0, 0⟩
    if cell.subKeyCountStable ≠ 0 ∨ cell.subKeyCountVolatile ≠ 0 then
      (NtStatus.cannotDelete, obj, cells)
    else
      (NtStatus.success, { obj with markedForDelete := true }, cells)

/-! ## NtFlushKey (ntfunc.c lines 1253-1303) -/

/-- NtFlushKey after handle validation.  First component: the status
returned to the caller; second: the internal `Status` variable (SUCCESS
for a no-file hive, otherwise whatever `CmiFlushRegistryHive` reported).
The function body ends with `return STATUS_SUCCESS`, discarding the
internal status. -/
def ntFlushKeyCore (noFileHive : Bool) (flushHiveStatus : NtStatus) :
    NtStatus × NtStatus :=
  let status := if noFileHive then NtStatus.success else flushHiveStatus
  (NtStatus.success, status)

/-! ## NtSaveKey (ntfunc.c lines 2569-2654) -/

/-- Result of NtSaveKey: the returned status, and whether the temporary
hive was destroyed (`CmiRemoveRegistryHive (TempHive)`). -/
structure SaveKeyOutcome where
  ret : NtStatus
  tempHiveDestroyed : Bool
  deriving DecidableEq

/-- NtSaveKey after handle validation, with the statuses of the opaque
collaborators `CmiCreateTempHive`, `CmiCopyKey` and `CmiSaveTempHive`
passed in.  A volatile key cell is rejected with STATUS_ACCESS_DENIED;
creation and copy failures propagate; the status of `CmiSaveTempHive` is
only logged, the temp hive is destroyed and STATUS_SUCCESS returned. -/
def ntSaveKeyCore (volatileCell : Bool)
    (createTempStatus copyStatus saveStatus : NtStatus) : SaveKeyOutcome :=
  if volatileCell then
    ⟨NtStatus.accessDenied, false⟩
  else if ntSuccess createTempStatus = false then
    ⟨createTempStatus, false⟩
  else if ntSuccess copyStatus = false then
    ⟨copyStatus, true⟩
  else
    let _saveResult := saveStatus
    ⟨NtStatus.success, true⟩

/-- Claim C1: for every NtDeleteKey call on a valid handle whose
pre-callback succeeds, a nonzero total subkey count yields
STATUS_CANNOT_DELETE with the key object's flags unchanged, a zero total
sets KO_MARKED_FOR_DELETE and yields STATUS_SUCCESS, and in neither case
is the key cell freed (the hive's cells are unchanged). -/
theorem ntDeleteKey_subkey_tombstone (preStatus : NtStatus)
    (cells : List (Nat × CmKeyNodeDel)) (off : Nat) (obj : KeyObjectDel)
    (cell : CmKeyNodeDel)
    (hpre : ntSuccess preStatus = true)
    (hcell : cells.lookup off = some cell) :
    (cell.subKeyCountStable + cell.subKeyCountVolatile ≠ 0 →
      ntDeleteKeyCore preStatus cells off obj =
        (NtStatus.cannotDelete, obj, cells)) ∧
    (cell.subKeyCountStable + cell.subKeyCountVolatile = 0 →
      ntDeleteKeyCore preStatus cells off obj =
        (NtStatus.success, { obj with markedForDelete := true }, cells)) := by
  constructor
  · intro h
    simp only [ntDeleteKeyCore, hpre, hcell]
    have hne : cell.subKeyCountStable ≠ 0 ∨ cell.subKeyCountVolatile ≠ 0 := by
      omega
    simp [hne]
  · intro h
    simp only [ntDeleteKeyCore, hpre, hcell]
    have h1 : cell.subKeyCountStable = 0 := by omega
    have h2 : cell.subKeyCountVolatile = 0 := by omega
    simp [h1, h2]

/-- Witness for C1: deleting a key with no subkeys succeeds and marks the
object, leaving the cell in place. -/
theorem ntDeleteKey_subkey_tombstone_witness :
    ntDeleteKeyCore NtStatus.success [(5, ⟨0, 0⟩)] 5 ⟨false⟩ =
      (NtStatus.success, ⟨true⟩, [(5, ⟨0, 0⟩)]) :=
  (ntDeleteKey_subkey_tombstone NtStatus.success [(5, ⟨0, 0⟩)] 5 ⟨false⟩ ⟨0, 0⟩
      (by decide) (by decide)).2 (by decide)

/-- Claim C3: NtFlushKey on a valid handle returns STATUS_SUCCESS
regardless of whether the hive is a no-file hive and regardless of the
status reported by the underlying hive flush. -/
theorem ntFlushKey_always_success (noFileHive : Bool)
    (flushHiveStatus : NtStatus) :
    (ntFlushKeyCore noFileHive flushHiveStatus).1 = NtStatus.success := rfl

/-- Claim C10: NtSaveKey on a non-volatile key where temp-hive creation
and the key copy succeed returns STATUS_SUCCESS even when CmiSaveTempHive
reports a failure, and the temp hive is destroyed either way. -/
theorem ntSaveKey_discards_save_status
    (createTempStatus copyStatus saveStatus : NtStatus)
    (hcreate : ntSuccess createTempStatus = true)
    (hcopy : ntSuccess copyStatus = true) :
    ntSaveKeyCore false createTempStatus copyStatus saveStatus =
      ⟨NtStatus.success, true⟩ := by
  simp [ntSaveKeyCore, hcreate, hcopy]

/-- Witness for C10: a failing CmiSaveTempHive still yields SUCCESS with
the temp hive destroyed. -/
theorem ntSaveKey_discards_save_status_witness :
    ntSaveKeyCore false NtStatus.success NtStatus.success
        NtStatus.insufficientResources = ⟨NtStatus.success, true⟩ :=
  ntSaveKey_discards_save_status NtStatus.success NtStatus.success
    NtStatus.insufficientResources (by decide) (by decide)

/-! ## NtCreateKey / NtOpenKey tombstone checks
(ntfunc.c lines 387-415 and 1412-1431) -/

/-- Key object as seen by the open paths: only the KO_MARKED_FOR_DELETE
flag is consulted. -/
structure KeyObjectOpen where
  markedForDelete : Bool
  deriving DecidableEq

/-- NtCreateKey once `CmFindObject` has resolved the name to an existing
key object with an empty remaining path: a tombstoned object fails with
STATUS_UNSUCCESSFUL before any handle is created; otherwise
`CmpCreateHandle` runs and a handle is issued iff it succeeded.  The
resolved object is returned unchanged in all cases. -/
def ntCreateKeyOnExisting (obj : KeyObjectOpen)
    (createHandleStatus : NtStatus) : NtStatus × Bool × KeyObjectOpen :=
  if obj.markedForDelete then
    (NtStatus.unsuccessful, false, obj)
  else
    (createHandleStatus, ntSuccess createHandleStatus, obj)

/-- NtOpenKey once `CmFindObject` has resolved to a key object: a
non-empty remaining path fails with STATUS_OBJECT_NAME_NOT_FOUND, a
tombstoned object with STATUS_UNSUCCESSFUL; otherwise `CmpCreateHandle`
runs.  The resolved object is returned unchanged in all cases. -/
def ntOpenKeyResolved (remainingPathNonEmpty : Bool) (obj : KeyObjectOpen)
    (createHandleStatus : NtStatus) : NtStatus × Bool × KeyObjectOpen :=
  if remainingPathNonEmpty then
    (NtStatus.objectNameNotFound, false, obj)
  else if obj.markedForDelete then
    (NtStatus.unsuccessful, false, obj)
  else
    (createHandleStatus, ntSuccess createHandleStatus, obj)

/-- Claim C2: once a key object carries KO_MARKED_FOR_DELETE, a
NtCreateKey resolving to it with empty remaining path and a NtOpenKey
resolving to it both return STATUS_UNSUCCESSFUL and issue no handle; the
object itself (and hence the state existing handles rely on) is left
untouched by the failing opens. -/
theorem tombstone_blocks_new_opens (obj : KeyObjectOpen)
    (createHandleStatus : NtStatus) (h : obj.markedForDelete = true) :
    ntCreateKeyOnExisting obj createHandleStatus =
      (NtStatus.unsuccessful, false, obj) ∧
    ntOpenKeyResolved false obj createHandleStatus =
      (NtStatus.unsuccessful, false, obj) := by
  constructor
  · simp [ntCreateKeyOnExisting, h]
  · simp [ntOpenKeyResolved, h]

/-- Witness for C2: both open paths reject a tombstoned object. -/
theorem tombstone_blocks_new_opens_witness :
    ntCreateKeyOnExisting ⟨true⟩ NtStatus.success =
      (NtStatus.unsuccessful, false, ⟨true⟩) ∧
    ntOpenKeyResolved false ⟨true⟩ NtStatus.success =
      (NtStatus.unsuccessful, false, ⟨true⟩) :=
  tombstone_blocks_new_opens ⟨true⟩ NtStatus.success (by decide)

/-! ## NtEnumerateKey subkey selection (ntfunc.c lines 753-793) -/

/-- The subkey bookkeeping of a CM_KEY_NODE: the per-storage-class
counters and hash-table cells (`none` models `HCELL_NULL`; a hash table
is modelled as the list of subkey cell offsets it holds, in list
order). -/
structure CmKeyNodeEnum where
  subKeyCountStable : Nat
  subKeyCountVolatile : Nat
  subKeyListStable : Option (List Nat)
  subKeyListVolatile : Option (List Nat)
  deriving DecidableEq

/-- Modelled from the spec: `CmiGetKeyFromHashByIndex` lives outside
src/ (regobj.c); per spec section 4.C it "returns the i-th subkey cell in
list order". -/
def cmiGetKeyFromHashByIndex (tbl : List Nat) (i : Nat) : Option Nat :=
  tbl.get? i

/-- NtEnumerateKey's subkey selection, after handle validation and a
successful pre-callback: an index at or past the total subkey count
yields STATUS_NO_MORE_ENTRIES; otherwise the storage class and base
index are chosen (volatile indices are offset by the stable count), a
missing hash table also yields STATUS_NO_MORE_ENTRIES, and otherwise the
subkey comes from the chosen table at the base index. -/
def ntEnumerateKeySubKey (kc : CmKeyNodeEnum) (index : Nat) :
    Except NtStatus (Option Nat) :=
  if kc.subKeyCountStable + kc.subKeyCountVolatile ≤ index then
    Except.error NtStatus.noMoreEntries
  else
    let storageList :=
      if kc.subKeyCountStable ≤ index then kc.subKeyListVolatile
      else kc.subKeyListStable
    let baseIndex :=
      if kc.subKeyCountStable ≤ index then index - kc.subKeyCountStable
      else index
    match storageList with
    | none => Except.error NtStatus.noMoreEntries
    | some tbl => Except.ok (cmiGetKeyFromHashByIndex tbl baseIndex)

/-- Claim C4: with s stable and v volatile subkeys, an index at or past
s+v yields STATUS_NO_MORE_ENTRIES, an index below s enumerates the i-th
entry of the stable list, and an index in [s, s+v) enumerates the
(i-s)-th entry of the volatile list. -/
theorem ntEnumerateKey_index_selection (kc : CmKeyNodeEnum)
    (ls lv : List Nat) (i : Nat)
    (hs : kc.subKeyListStable = some ls)
    (hv : kc.subKeyListVolatile = some lv) :
    (kc.subKeyCountStable + kc.subKeyCountVolatile ≤ i →
      ntEnumerateKeySubKey kc i = Except.error NtStatus.noMoreEntries) ∧
    (i < kc.subKeyCountStable →
      ntEnumerateKeySubKey kc i = Except.ok (ls.get? i)) ∧
    (kc.subKeyCountStable ≤ i →
      i < kc.subKeyCountStable + kc.subKeyCountVolatile →
      ntEnumerateKeySubKey kc i =
        Except.ok (lv.get? (i - kc.subKeyCountStable))) := by
  refine ⟨?_, ?_, ?_⟩
  · intro h
    simp [ntEnumerateKeySubKey, h]
  · intro h
    have h1 : ¬ kc.subKeyCountStable + kc.subKeyCountVolatile ≤ i := by omega
    have h2 : ¬ kc.subKeyCountStable ≤ i := by omega
    simp [ntEnumerateKeySubKey, h1, h2, hs, cmiGetKeyFromHashByIndex]
  · intro h h'
    have h1 : ¬ kc.subKeyCountStable + kc.subKeyCountVolatile ≤ i := by omega
    simp [ntEnumerateKeySubKey, h1, h, hv, cmiGetKeyFromHashByIndex]

/-- Witness for C4, the spec's concrete scenario: with 2 stable and 1
volatile subkeys, index 2 returns the volatile subkey and index 3
returns STATUS_NO_MORE_ENTRIES. -/
theorem ntEnumerateKey_index_selection_witness :
    ntEnumerateKeySubKey ⟨2, 1, some [10, 11], some [12]⟩ 2 =
      Except.ok (some 12) ∧
    ntEnumerateKeySubKey ⟨2, 1, some [10, 11], some [12]⟩ 3 =
      Except.error NtStatus.noMoreEntries :=
  ⟨(ntEnumerateKey_index_selection ⟨2, 1, some [10, 11], some [12]⟩
      [10, 11] [12] 2 rfl rfl).2.2 (by decide) (by decide),
   (ntEnumerateKey_index_selection ⟨2, 1, some [10, 11], some [12]⟩
      [10, 11] [12] 3 rfl rfl).1 (by decide)⟩

/-! ## CmUnRegisterCallback (ntfunc.c lines 182-232) -/

/-- The fields of a REGISTRY_CALLBACK entry that CmUnRegisterCallback
reads or writes. -/
structure RegistryCallbackEntry where
  cookie : Nat
  pendingDelete : Bool
  deriving DecidableEq

/-- The ordered side effects CmUnRegisterCallback performs on the entry
it deletes. -/
inductive UnregisterStep where
  | setPendingDelete
  | waitRundownRelease
  | unlink
  | freeEntry
  deriving DecidableEq

/-- CmUnRegisterCallback: walk the callback list for a matching cookie.
A match that is already pending delete returns STATUS_UNSUCCESSFUL with
the list intact; a live match is marked pending delete, the rundown
protection is drained, and the entry is unlinked and freed with
STATUS_SUCCESS; no match returns STATUS_UNSUCCESSFUL.  The third result
component records the ordered side effects on the deleted entry. -/
def cmUnRegisterCallback :
    List RegistryCallbackEntry → Nat →
      NtStatus × List RegistryCallbackEntry × List UnregisterStep
  | [], _ => (NtStatus.unsuccessful, [], [])
  | c :: rest, ck =>
    if c.cookie = ck then
      if c.pendingDelete then
        (NtStatus.unsuccessful, c :: rest, [])
      else
        (NtStatus.success, rest,
         [UnregisterStep.setPendingDelete, UnregisterStep.waitRundownRelease,
          UnregisterStep.unlink, UnregisterStep.freeEntry])
    else
      let r := cmUnRegisterCallback rest ck
      (r.1, c :: r.2.1, r.2.2)

/-- Claim C8: Unregister(cookie) returns STATUS_UNSUCCESSFUL and removes
nothing when no entry matches or when the matching entry is already
pending delete; a live matching entry is marked pending delete, drained,
unlinked and freed (in that order) with STATUS_SUCCESS. -/
theorem cmUnRegisterCallback_spec (lst : List RegistryCallbackEntry)
    (ck : Nat) :
    (lst.find? (fun c => c.cookie == ck) = none →
      cmUnRegisterCallback lst ck = (NtStatus.unsuccessful, lst, [])) ∧
    (∀ c, lst.find? (fun c => c.cookie == ck) = some c →
      c.pendingDelete = true →
      cmUnRegisterCallback lst ck = (NtStatus.unsuccessful, lst, [])) ∧
    (∀ c, lst.find? (fun c => c.cookie == ck) = some c →
      c.pendingDelete = false →
      cmUnRegisterCallback lst ck =
        (NtStatus.success, List.eraseP (fun c => c.cookie == ck) lst,
         [UnregisterStep.setPendingDelete, UnregisterStep.waitRundownRelease,
          UnregisterStep.unlink, UnregisterStep.freeEntry])) := by
  induction lst with
  | nil => simp [cmUnRegisterCallback]
  | cons c rest ih =>
    by_cases hc : c.cookie = ck
    · refine ⟨?_, ?_, ?_⟩
      · intro hfind
        simp [List.find?, hc] at hfind
      · intro d hfind hd
        simp [List.find?, hc] at hfind
        subst hfind
        simp [cmUnRegisterCallback, hc, hd]
      · intro d hfind hd
        simp [List.find?, hc] at hfind
        subst hfind
        simp [cmUnRegisterCallback, hc, hd, List.eraseP_cons]
    · have hbeq : (c.cookie == ck) = false := by
        simp [hc]
      have hfind : (c :: rest).find? (fun c => c.cookie == ck) =
          rest.find? (fun c => c.cookie == ck) := by
        simp [List.find?, hbeq]
      refine ⟨?_, ?_, ?_⟩
      · intro h
        rw [hfind] at h
        have := ih.1 h
        simp [cmUnRegisterCallback, hc, this]
      · intro d h hd
        rw [hfind] at h
        have := ih.2.1 d h hd
        simp [cmUnRegisterCallback, hc, this]
      · intro d h hd
        rw [hfind] at h
        have := ih.2.2 d h hd
        simp [cmUnRegisterCallback, hc, hbeq, this, List.eraseP_cons]

/-- Witness for C8: unregistering the only live entry succeeds, empties
the list, and performs mark, drain, unlink, free in order. -/
theorem cmUnRegisterCallback_spec_witness :
    cmUnRegisterCallback [⟨7, false⟩] 7 =
      (NtStatus.success, [],
       [UnregisterStep.setPendingDelete, UnregisterStep.waitRundownRelease,
        UnregisterStep.unlink, UnregisterStep.freeEntry]) :=
  (cmUnRegisterCallback_spec [⟨7, false⟩] 7).2.2 ⟨7, false⟩ (by decide)
    (by decide)

/-! ## NtSetInformationKey (ntfunc.c lines 2672-2754) -/

/-- The one CM_KEY_NODE field NtSetInformationKey can change. -/
structure CmKeyNodeInfo where
  lastWriteTime : Int
  deriving DecidableEq

/-- KEY_SET_INFORMATION_CLASS value of KeyWriteTimeInformation. -/
def keyWriteTimeInformationClass : Nat := 0

/-- sizeof(KEY_WRITE_TIME_INFORMATION): one LARGE_INTEGER. -/
def sizeofKeyWriteTimeInformation : Nat := 8

/-- Result of NtSetInformationKey: status returned to the caller, status
handed to the post-callback, resulting key cell, and whether the key
cell was marked dirty. -/
structure SetInformationKeyOutcome where
  ret : NtStatus
  postStatus : NtStatus
  cell : CmKeyNodeInfo
  cellDirty : Bool
  deriving DecidableEq

/-- NtSetInformationKey after handle validation: a failed pre-callback
short-circuits with its status.  Otherwise the inner branch computes a
status (STATUS_INVALID_INFO_CLASS for any class other than
KeyWriteTimeInformation, STATUS_INFO_LENGTH_MISMATCH for a wrong length,
else it updates LastWriteTime and marks the cell dirty); the
post-callback sees that inner status, but the function ends with
`return STATUS_SUCCESS` regardless. -/
def ntSetInformationKeyCore (preStatus : NtStatus) (cls infoLen : Nat)
    (newTime : Int) (cell : CmKeyNodeInfo) : SetInformationKeyOutcome :=
  if ntSuccess preStatus = false then
    ⟨preStatus, preStatus, cell, false⟩
  else
    let inner :=
      if cls ≠ keyWriteTimeInformationClass then
        (NtStatus.invalidInfoClass, cell, false)
      else if infoLen ≠ sizeofKeyWriteTimeInformation then
        (NtStatus.infoLengthMismatch, cell, false)
      else
        (NtStatus.success, { cell with lastWriteTime := newTime }, true)
    ⟨NtStatus.success, inner.1, inner.2.1, inner.2.2⟩

/-- Claim C9: when handle validation and the pre-callback succeed,
NtSetInformationKey returns STATUS_SUCCESS even when the inner branch
produced STATUS_INVALID_INFO_CLASS or STATUS_INFO_LENGTH_MISMATCH
(visible only to the post-callback) with no state modified; only the
valid class/length case updates LastWriteTime and marks the cell
dirty. -/
theorem ntSetInformationKey_always_success (preStatus : NtStatus)
    (cls infoLen : Nat) (newTime : Int) (cell : CmKeyNodeInfo)
    (hpre : ntSuccess preStatus = true) :
    (ntSetInformationKeyCore preStatus cls infoLen newTime cell).ret =
      NtStatus.success ∧
    (cls ≠ keyWriteTimeInformationClass →
      ntSetInformationKeyCore preStatus cls infoLen newTime cell =
        ⟨NtStatus.success, NtStatus.invalidInfoClass, cell, false⟩) ∧
    (cls = keyWriteTimeInformationClass →
      infoLen ≠ sizeofKeyWriteTimeInformation →
      ntSetInformationKeyCore preStatus cls infoLen newTime cell =
        ⟨NtStatus.success, NtStatus.infoLengthMismatch, cell, false⟩) ∧
    (cls = keyWriteTimeInformationClass →
      infoLen = sizeofKeyWriteTimeInformation →
      ntSetInformationKeyCore preStatus cls infoLen newTime cell =
        ⟨NtStatus.success, NtStatus.success, ⟨newTime⟩, true⟩) := by
  refine ⟨?_, ?_, ?_, ?_⟩
  · by_cases h1 : cls = keyWriteTimeInformationClass
    · by_cases h2 : infoLen = sizeofKeyWriteTimeInformation
      · simp [ntSetInformationKeyCore, hpre, h1, h2]
      · simp [ntSetInformationKeyCore, hpre, h1, h2]
    · simp [ntSetInformationKeyCore, hpre, h1]
  · intro h1
    simp [ntSetInformationKeyCore, hpre, h1]
  · intro h1 h2
    simp [ntSetInformationKeyCore, hpre, h1, h2]
  · intro h1 h2
    simp [ntSetInformationKeyCore, hpre, h1, h2]

/-- Witness for C9: an unsupported information class still yields
STATUS_SUCCESS with nothing modified. -/
theorem ntSetInformationKey_always_success_witness :
    ntSetInformationKeyCore NtStatus.success 3 8 0 ⟨42⟩ =
      ⟨NtStatus.success, NtStatus.invalidInfoClass, ⟨42⟩, false⟩ :=
  (ntSetInformationKey_always_success NtStatus.success 3 8 0 ⟨42⟩
      (by decide)).2.1 (by decide)

/-! ## NtQueryKey buffer sizing (ntfunc.c lines 1463-1688) -/

/-- FIELD_OFFSET(KEY_BASIC_INFORMATION, Name[0]):
LastWriteTime (8) + TitleIndex (4) + NameLength (4). -/
def keyBasicInformationNameOffset : Nat := 16

/-- FIELD_OFFSET(KEY_NODE_INFORMATION, Name[0]): LastWriteTime (8) +
TitleIndex (4) + ClassOffset (4) + ClassLength (4) + NameLength (4). -/
def keyNodeInformationNameOffset : Nat := 24

/-- FIELD_OFFSET(KEY_FULL_INFORMATION, Class): LastWriteTime (8) +
TitleIndex, ClassOffset, ClassLength, SubKeys, MaxNameLen, MaxClassLen,
Values, MaxValueNameLen, MaxValueDataLen (9 x 4). -/
def keyFullInformationClassOffset : Nat := 44

/-- The operand key as seen by NtQueryKey's sizing logic: the cached
object name length in bytes (`KeyObject->Name.Length`) and the class
size of the key cell (`KeyCell->ClassSize`). -/
structure QueryKeyOperand where
  nameLen : Nat
  classSize : Nat
  deriving DecidableEq

/-- NtQueryKey, KeyBasicInformation case: `*ResultLength` is set to the
bare fixed header; STATUS_BUFFER_TOO_SMALL when the header does not fit,
STATUS_BUFFER_OVERFLOW when the name is truncated.  Returns
(status, *ResultLength). -/
def ntQueryKeyBasic (k : QueryKeyOperand) (len : Nat) : NtStatus × Nat :=
  let resultLength := keyBasicInformationNameOffset
  if len < keyBasicInformationNameOffset then
    (NtStatus.bufferTooSmall, resultLength)
  else if len - keyBasicInformationNameOffset < k.nameLen then
    (NtStatus.bufferOverflow, resultLength)
  else
    (NtStatus.success, resultLength)

/-- NtQueryKey, KeyNodeInformation case: `*ResultLength` is the full
required total (header + name + class) and the TOO_SMALL test compares
the buffer against `*ResultLength`, so the inner OVERFLOW branches are
unreachable.  Returns (status, *ResultLength). -/
def ntQueryKeyNode (k : QueryKeyOperand) (len : Nat) : NtStatus × Nat :=
  let resultLength := keyNodeInformationNameOffset + k.nameLen + k.classSize
  if len < resultLength then
    (NtStatus.bufferTooSmall, resultLength)
  else if len - keyNodeInformationNameOffset < k.nameLen then
    (NtStatus.bufferOverflow, resultLength)
  else if len - keyNodeInformationNameOffset - k.nameLen < k.classSize then
    (NtStatus.bufferOverflow, resultLength)
  else
    (NtStatus.success, resultLength)

/-- NtQueryKey, KeyFullInformation case: `*ResultLength` is the required
total (header + class); STATUS_BUFFER_TOO_SMALL when the header does not
fit, STATUS_BUFFER_OVERFLOW when the class payload is truncated.
Returns (status, *ResultLength). -/
def ntQueryKeyFull (k : QueryKeyOperand) (len : Nat) : NtStatus × Nat :=
  let resultLength := keyFullInformationClassOffset + k.classSize
  if len < keyFullInformationClassOffset then
    (NtStatus.bufferTooSmall, resultLength)
  else if len - keyFullInformationClassOffset < k.classSize then
    (NtStatus.bufferOverflow, resultLength)
  else
    (NtStatus.success, resultLength)

/-- Counterexample to C5: for KeyNodeInformation with a 2-byte name and
a 24-byte buffer the fixed header fits and the payload is truncated, yet
the code returns STATUS_BUFFER_TOO_SMALL, not STATUS_BUFFER_OVERFLOW as
the claim requires; and for KeyBasicInformation with a 2-byte name the
reported `*ResultLength` is the bare 16-byte header, not the required
total 18. -/
theorem ntQueryKey_buffer_claim_counterexample :
    (ntQueryKeyNode ⟨2, 0⟩ 24).1 = NtStatus.bufferTooSmall ∧
    (ntQueryKeyNode ⟨2, 0⟩ 24).1 ≠ NtStatus.bufferOverflow ∧
    (ntQueryKeyBasic ⟨2, 0⟩ 10).2 = 16 ∧
    (ntQueryKeyBasic ⟨2, 0⟩ 10).2 ≠ keyBasicInformationNameOffset + 2 := by
  decide

/-- Claim C5 as amended: KeyFullInformation behaves as the claim states
(TOO_SMALL exactly when the fixed header does not fit, OVERFLOW when the
class payload is truncated, `*ResultLength` always the required total).
KeyBasicInformation has the claimed statuses but reports only the fixed
header size in `*ResultLength`, excluding the name.  KeyNodeInformation
reports the required total but returns TOO_SMALL whenever the buffer is
below that total, and never returns OVERFLOW. -/
theorem ntQueryKey_buffer_spec (k : QueryKeyOperand) (len : Nat) :
    ((ntQueryKeyFull k len).1 = NtStatus.bufferTooSmall ↔
      len < keyFullInformationClassOffset) ∧
    ((ntQueryKeyFull k len).1 = NtStatus.bufferOverflow ↔
      keyFullInformationClassOffset ≤ len ∧
      len < keyFullInformationClassOffset + k.classSize) ∧
    (ntQueryKeyFull k len).2 = keyFullInformationClassOffset + k.classSize ∧
    ((ntQueryKeyBasic k len).1 = NtStatus.bufferTooSmall ↔
      len < keyBasicInformationNameOffset) ∧
    ((ntQueryKeyBasic k len).1 = NtStatus.bufferOverflow ↔
      keyBasicInformationNameOffset ≤ len ∧
      len < keyBasicInformationNameOffset + k.nameLen) ∧
    (ntQueryKeyBasic k len).2 = keyBasicInformationNameOffset ∧
    ((ntQueryKeyNode k len).1 = NtStatus.bufferTooSmall ↔
      len < keyNodeInformationNameOffset + k.nameLen + k.classSize) ∧
    (ntQueryKeyNode k len).1 ≠ NtStatus.bufferOverflow ∧
    (ntQueryKeyNode k len).2 =
      keyNodeInformationNameOffset + k.nameLen + k.classSize := by
  simp only [ntQueryKeyFull, ntQueryKeyBasic, ntQueryKeyNode,
    keyFullInformationClassOffset, keyBasicInformationNameOffset,
    keyNodeInformationNameOffset]
  refine ⟨?_, ?_, ?_, ?_, ?_, ?_, ?_, ?_, ?_⟩
  · by_cases c1 : len < 44 <;> by_cases c2 : len - 44 < k.classSize <;>
      (try simp [c1, c2]) <;> omega
  · by_cases c1 : len < 44 <;> by_cases c2 : len - 44 < k.classSize <;>
      (try simp [c1, c2]) <;> omega
  · by_cases c1 : len < 44 <;> by_cases c2 : len - 44 < k.classSize <;>
      (try simp [c1, c2]) <;> omega
  · by_cases c1 : len < 16 <;> by_cases c2 : len - 16 < k.nameLen <;>
      (try simp [c1, c2]) <;> omega
  · by_cases c1 : len < 16 <;> by_cases c2 : len - 16 < k.nameLen <;>
      (try simp [c1, c2]) <;> omega
  · by_cases c1 : len < 16 <;> by_cases c2 : len - 16 < k.nameLen <;>
      (try simp [c1, c2]) <;> omega
  · by_cases c1 : len < 24 + k.nameLen + k.classSize <;>
      by_cases c2 : len - 24 < k.nameLen <;>
      by_cases c3 : len - 24 - k.nameLen < k.classSize <;>
      (try simp [c1, c2, c3]) <;> omega
  · by_cases c1 : len < 24 + k.nameLen + k.classSize <;>
      by_cases c2 : len - 24 < k.nameLen <;>
      by_cases c3 : len - 24 - k.nameLen < k.classSize <;>
      (try simp [c1, c2, c3]) <;> omega
  · by_cases c1 : len < 24 + k.nameLen + k.classSize <;>
      by_cases c2 : len - 24 < k.nameLen <;>
      by_cases c3 : len - 24 - k.nameLen < k.classSize <;>
      (try simp [c1, c2, c3]) <;> omega

/-- Witness for the amended C5: at the counterexample's Node input the
code is in the TOO_SMALL regime of the amended statement. -/
theorem ntQueryKey_buffer_spec_witness :
    (ntQueryKeyNode ⟨2, 0⟩ 24).1 = NtStatus.bufferTooSmall ∧ 24 < 26 :=
  ⟨(ntQueryKey_buffer_spec ⟨2, 0⟩ 24).2.2.2.2.2.2.1.mpr (by decide),
   by decide⟩

/-! ## NtSetValueKey data storage (ntfunc.c lines 1954-2138) -/

/-- sizeof(HCELL_INDEX): a 32-bit cell offset. -/
def hcellIndexSize : Nat := 4

/-- The REG_DATA_IN_OFFSET flag: bit 31 of the `DataSize` field. -/
def regDataInOffsetBit : Nat := 2 ^ 31

/-- `DataSize & REG_DATA_SIZE_MASK`: the low 31 bits. -/
def regDataSizeMask (ds : Nat) : Nat := ds % 2 ^ 31

/-- `DataSize & REG_DATA_IN_OFFSET`: whether bit 31 is set. -/
def regDataInOffsetSet (ds : Nat) : Bool := ds / 2 ^ 31 % 2 == 1

/-- An allocated out-of-line data cell: its allocation size (the source
stores the negated value, `-HvGetCellSize`), contents, and dirty bit. -/
structure DataCellRec where
  size : Nat
  bytes : List Nat
  dirty : Bool
  deriving DecidableEq

/-- The hive as NtSetValueKey touches it: the allocated data cells keyed
by cell offset, the next fresh offset handed out by `HvAllocateCell`, and
whether allocation currently succeeds (`HvAllocateCell` returns
HCELL_NULL on exhaustion). -/
structure Hive where
  dataCells : List (Nat × DataCellRec)
  nextOffset : Nat
  allocOk : Bool
  deriving DecidableEq

/-- Cell lookup by offset (`HvGetCell`). -/
def findCell : List (Nat × DataCellRec) → Nat → Option DataCellRec
  | [], _ => none
  | c :: rest, off => if c.1 = off then some c.2 else findCell rest off

/-- Cell deallocation (`HvFreeCell`). -/
def removeCell : List (Nat × DataCellRec) → Nat → List (Nat × DataCellRec)
  | [], _ => []
  | c :: rest, off =>
    if c.1 = off then removeCell rest off else c :: removeCell rest off

/-- Point update of one cell's record. -/
def updateCell (l : List (Nat × DataCellRec)) (off : Nat)
    (f : DataCellRec → DataCellRec) : List (Nat × DataCellRec) :=
  l.map (fun c => if c.1 = off then (c.1, f c.2) else c)

/-- `HvFreeCell` on the hive. -/
def Hive.freeCell (h : Hive) (off : Nat) : Hive :=
  { h with dataCells := removeCell h.dataCells off }

/-- `-HvGetCellSize` of the cell at an offset (0 when absent). -/
def Hive.getCellSize (h : Hive) (off : Nat) : Nat :=
  ((findCell h.dataCells off).map DataCellRec.size).getD 0

/-- `RtlCopyMemory` of the data into the cell at an offset. -/
def Hive.writeCell (h : Hive) (off : Nat) (data : List Nat) : Hive :=
  { h with dataCells := updateCell h.dataCells off fun r => { r with bytes := data } }

/-- `HvMarkCellDirty` on the cell at an offset. -/
def Hive.markDirty (h : Hive) (off : Nat) : Hive :=
  { h with dataCells := updateCell h.dataCells off fun r => { r with dirty := true } }

/-- `HvAllocateCell`: hands out the next fresh offset. -/
def Hive.allocCell (h : Hive) (sz : Nat) : Nat × Hive :=
  (h.nextOffset,
   { h with dataCells := (h.nextOffset, ⟨sz, [], false⟩) :: h.dataCells,
            nextOffset := h.nextOffset + 1 })

/-- A CM_KEY_VALUE as NtSetValueKey touches it: `DataType`, the
flag-and-length `DataSize` word, the `DataOffset` field (a cell index,
or up to 4 inline data bytes), and the dirty mark of the value cell
itself. -/
structure CmKeyValue where
  dataType : Nat
  dataSize : Nat
  dataOffset : Nat
  dirty : Bool
  deriving DecidableEq

/-- Little-endian packing of data bytes, as `RtlCopyMemory` into the
4-byte `DataOffset` field lays them out. -/
def bytesToWord : List Nat → Nat
  | [] => 0
  | b :: bs => b % 256 + 256 * bytesToWord bs

/-- Copy `data.length` bytes over the low bytes of a word, leaving the
upper bytes unchanged, as the partial `RtlCopyMemory` into
`&ValueCell->DataOffset` does. -/
def storeBytesInWord (old : Nat) (data : List Nat) : Nat :=
  bytesToWord data + old / 2 ^ (8 * data.length) * 2 ^ (8 * data.length)

/-- The `DataCell` computed at lines 2048-2058: the existing out-of-line
data cell, present only when REG_DATA_IN_OFFSET is clear and the stored
length is nonzero. -/
def curDataCell (vc : CmKeyValue) : Option Nat :=
  if regDataInOffsetSet vc.dataSize = false ∧ regDataSizeMask vc.dataSize ≠ 0
  then some vc.dataOffset
  else none

/-- The `DataCellSize` of lines 2048-2058 (0 when there is no current
data cell). -/
def curDataCellSize (h : Hive) (vc : CmKeyValue) : Nat :=
  match curDataCell vc with
  | some off => h.getCellSize off
  | none => 0

/-- The storage decision of NtSetValueKey (lines 2044-2115), entered with
the scanned-or-added value cell in hand.  Data of at most
sizeof(HCELL_INDEX) bytes goes inline into `DataOffset` with
REG_DATA_IN_OFFSET set, freeing any existing data cell; larger data
reuses the current data cell when it is big enough, else a new stable
cell is allocated and the old one freed.  When `HvAllocateCell` fails the
source returns the stale `Status` variable - which is STATUS_SUCCESS at
that point - leaving everything unchanged. -/
def setValueCore (hive : Hive) (vc : CmKeyValue) (data : List Nat)
    (ty : Nat) : NtStatus × Hive × CmKeyValue :=
  let dataSize := data.length
  let dataCell := curDataCell vc
  let dataCellSize := curDataCellSize hive vc
  if dataSize ≤ hcellIndexSize then
    let hive1 :=
      match dataCell with
      | some off => hive.freeCell off
      | none => hive
    (NtStatus.success, hive1,
     { vc with
         dataOffset := storeBytesInWord vc.dataOffset data,
         dataSize := dataSize + regDataInOffsetBit,
         dataType := ty,
         dirty := true })
  else if dataCellSize < dataSize then
    if hive.allocOk = false then
      (NtStatus.success, hive, vc)
    else
      let alloc := hive.allocCell dataSize
      let hive2 :=
        match dataCell with
        | some off => alloc.2.freeCell off
        | none => alloc.2
      let hive3 := (hive2.writeCell alloc.1 data).markDirty alloc.1
      (NtStatus.success, hive3,
       { vc with
           dataOffset := alloc.1,
           dataSize := regDataSizeMask dataSize,
           dataType := ty,
           dirty := true })
  else
    let hive1 := (hive.writeCell vc.dataOffset data).markDirty vc.dataOffset
    (NtStatus.success, hive1,
     { vc with
         dataSize := regDataSizeMask dataSize,
         dataType := ty,
         dirty := true })

theorem bytesToWord_lt (data : List Nat) :
    bytesToWord data < 2 ^ (8 * data.length) := by
  induction data with
  | nil => simp [bytesToWord]
  | cons b bs ih =>
    have hp : 2 ^ (8 * (bs.length + 1)) = 2 ^ (8 * bs.length) * 256 := by
      rw [Nat.mul_succ, pow_add]
      norm_num
    simp only [bytesToWord, List.length_cons, hp]
    omega

theorem storeBytesInWord_mod (old : Nat) (data : List Nat) :
    storeBytesInWord old data % 2 ^ (8 * data.length) = bytesToWord data := by
  unfold storeBytesInWord
  rw [Nat.add_mul_mod_self_right]
  exact Nat.mod_eq_of_lt (bytesToWord_lt data)

theorem regDataInOffsetSet_of_bit (nv : Nat) (h : nv < 2 ^ 31) :
    regDataInOffsetSet (nv + regDataInOffsetBit) = true := by
  have h31 : (2 : Nat) ^ 31 = 2147483648 := by norm_num
  simp only [regDataInOffsetSet, regDataInOffsetBit, h31, beq_iff_eq]
  simp only [h31] at h
  omega

theorem regDataInOffsetSet_of_small (nv : Nat) (h : nv < 2 ^ 31) :
    regDataInOffsetSet nv = false := by
  have h31 : (2 : Nat) ^ 31 = 2147483648 := by norm_num
  simp only [regDataInOffsetSet, h31, beq_eq_false_iff_ne, ne_eq]
  simp only [h31] at h
  omega

theorem findCell_removeCell_self (l : List (Nat × DataCellRec)) (off : Nat) :
    findCell (removeCell l off) off = none := by
  induction l with
  | nil => rfl
  | cons c rest ih =>
    by_cases h : c.1 = off
    · simp [removeCell, h, ih]
    · simp [removeCell, findCell, h, ih]

theorem findCell_removeCell_ne (l : List (Nat × DataCellRec)) (off o : Nat)
    (h : o ≠ off) : findCell (removeCell l off) o = findCell l o := by
  induction l with
  | nil => rfl
  | cons c rest ih =>
    have hoo : ¬ off = o := fun he => h he.symm
    by_cases hc : c.1 = off
    · have hco : ¬ c.1 = o := by omega
      simp [removeCell, findCell, hc, hco, hoo, ih]
    · by_cases ho : c.1 = o
      · simp [removeCell, findCell, hc, ho, hoo, h]
      · simp [removeCell, findCell, hc, ho, ih]

theorem findCell_updateCell_self (l : List (Nat × DataCellRec)) (off : Nat)
    (f : DataCellRec → DataCellRec) :
    findCell (updateCell l off f) off = (findCell l off).map f := by
  induction l with
  | nil => rfl
  | cons c rest ih =>
    by_cases h : c.1 = off
    · simp [updateCell, findCell, h]
    · simp only [updateCell, List.map_cons] at *
      simp [findCell, h, ih]

theorem findCell_updateCell_ne (l : List (Nat × DataCellRec)) (off o : Nat)
    (f : DataCellRec → DataCellRec) (h : o ≠ off) :
    findCell (updateCell l off f) o = findCell l o := by
  induction l with
  | nil => rfl
  | cons c rest ih =>
    have hoo : ¬ off = o := fun he => h he.symm
    by_cases hc : c.1 = off
    · have hco : ¬ c.1 = o := by omega
      simp only [updateCell, List.map_cons] at *
      simp [findCell, hc, hco, hoo, ih]
    · by_cases ho : c.1 = o
      · simp only [updateCell, List.map_cons] at *
        simp [findCell, hc, ho, hoo, h]
      · simp only [updateCell, List.map_cons] at *
        simp [findCell, hc, ho, ih]

/-- Counterexample to C6 as stated: when `HvAllocateCell` fails, the
source returns the stale `Status` variable - STATUS_SUCCESS - so this is
a *successful* SetValueKey whose 8-byte data exceeds sizeof(HCELL_INDEX)
and the (absent) current data cell's size, yet no stable data cell is
allocated and nothing changes at all. -/
theorem ntSetValueKey_alloc_failure_counterexample :
    (setValueCore ⟨[], 5, false⟩ ⟨0, 3 + 2 ^ 31, 0, false⟩
        [1, 2, 3, 4, 5, 6, 7, 8] 3).1 = NtStatus.success ∧
    (setValueCore ⟨[], 5, false⟩ ⟨0, 3 + 2 ^ 31, 0, false⟩
        [1, 2, 3, 4, 5, 6, 7, 8] 3).2.1.dataCells = [] ∧
    (setValueCore ⟨[], 5, false⟩ ⟨0, 3 + 2 ^ 31, 0, false⟩
        [1, 2, 3, 4, 5, 6, 7, 8] 3).2.2 = ⟨0, 3 + 2 ^ 31, 0, false⟩ := by
  decide

/-- Claim C6 as amended: for every SetValueKey whose internal data-cell
allocation does not fail (on allocation failure the source returns a
stale STATUS_SUCCESS with nothing changed), data of at most
sizeof(HCELL_INDEX) bytes is stored inline in `DataOffset` with
REG_DATA_IN_OFFSET set and any existing out-of-line data cell freed and
none allocated; larger data that exceeds the current data cell's size
gets a freshly allocated stable data cell while the old one is freed;
larger data that fits the current data cell reuses it in place; and in
the out-of-line cases the stored `DataSize` has REG_DATA_IN_OFFSET clear
and carries the exact byte count. -/
theorem ntSetValueKey_storage_policy (hive : Hive) (vc : CmKeyValue)
    (data : List Nat) (ty : Nat)
    (halloc : hive.allocOk = true)
    (hlen : data.length < 2 ^ 31)
    (hcur : ∀ off, curDataCell vc = some off → off < hive.nextOffset) :
    (setValueCore hive vc data ty).1 = NtStatus.success ∧
    (data.length ≤ hcellIndexSize →
      (setValueCore hive vc data ty).2.2.dataOffset % 2 ^ (8 * data.length) =
          bytesToWord data ∧
      regDataInOffsetSet (setValueCore hive vc data ty).2.2.dataSize = true ∧
      (∀ off, curDataCell vc = some off →
        findCell (setValueCore hive vc data ty).2.1.dataCells off = none) ∧
      (setValueCore hive vc data ty).2.1.nextOffset = hive.nextOffset) ∧
    (hcellIndexSize < data.length → curDataCellSize hive vc < data.length →
      findCell (setValueCore hive vc data ty).2.1.dataCells hive.nextOffset =
          some ⟨data.length, data, true⟩ ∧
      (setValueCore hive vc data ty).2.2.dataOffset = hive.nextOffset ∧
      (∀ off, curDataCell vc = some off →
        findCell (setValueCore hive vc data ty).2.1.dataCells off = none)) ∧
    (hcellIndexSize < data.length → data.length ≤ curDataCellSize hive vc →
      (setValueCore hive vc data ty).2.2.dataOffset = vc.dataOffset ∧
      (setValueCore hive vc data ty).2.1.nextOffset = hive.nextOffset ∧
      ∃ r0, findCell hive.dataCells vc.dataOffset = some r0 ∧
        findCell (setValueCore hive vc data ty).2.1.dataCells vc.dataOffset =
          some { r0 with bytes := data, dirty := true }) ∧
    (hcellIndexSize < data.length →
      regDataInOffsetSet (setValueCore hive vc data ty).2.2.dataSize = false ∧
      regDataSizeMask (setValueCore hive vc data ty).2.2.dataSize =
        data.length) := by
  by_cases hsmall : data.length ≤ hcellIndexSize
  · cases hcc : curDataCell vc with
    | none =>
      have heq : setValueCore hive vc data ty =
          (NtStatus.success, hive,
           { vc with
               dataOffset := storeBytesInWord vc.dataOffset data,
               dataSize := data.length + regDataInOffsetBit,
               dataType := ty,
               dirty := true }) := by
        simp [setValueCore, hsmall, hcc]
      refine ⟨?_, ?_, ?_, ?_, ?_⟩
      · rw [heq]
      · intro _
        refine ⟨?_, ?_, ?_, ?_⟩
        · rw [heq]
          exact storeBytesInWord_mod vc.dataOffset data
        · rw [heq]
          exact regDataInOffsetSet_of_bit data.length hlen
        · intro off hoff
          simp at hoff
        · rw [heq]
      · intro hn _
        exact absurd hsmall (by omega)
      · intro hn _
        exact absurd hsmall (by omega)
      · intro hn
        exact absurd hsmall (by omega)
    | some off =>
      have heq : setValueCore hive vc data ty =
          (NtStatus.success, hive.freeCell off,
           { vc with
               dataOffset := storeBytesInWord vc.dataOffset data,
               dataSize := data.length + regDataInOffsetBit,
               dataType := ty,
               dirty := true }) := by
        simp [setValueCore, hsmall, hcc]
      refine ⟨?_, ?_, ?_, ?_, ?_⟩
      · rw [heq]
      · intro _
        refine ⟨?_, ?_, ?_, ?_⟩
        · rw [heq]
          exact storeBytesInWord_mod vc.dataOffset data
        · rw [heq]
          exact regDataInOffsetSet_of_bit data.length hlen
        · intro off' hoff'
          have h9 : off = off' := Option.some.inj hoff'
          subst h9
          rw [heq]
          simp only [Hive.freeCell]
          exact findCell_removeCell_self hive.dataCells off
        · rw [heq]
          simp [Hive.freeCell]
      · intro hn _
        exact absurd hsmall (by omega)
      · intro hn _
        exact absurd hsmall (by omega)
      · intro hn
        exact absurd hsmall (by omega)
  · by_cases hbig : curDataCellSize hive vc < data.length
    · cases hcc : curDataCell vc with
      | none =>
        have heq : setValueCore hive vc data ty =
            (NtStatus.success,
             ⟨updateCell (updateCell
                 ((hive.nextOffset, ⟨data.length, [], false⟩) :: hive.dataCells)
                 hive.nextOffset fun r => { r with bytes := data })
                 hive.nextOffset fun r => { r with dirty := true },
              hive.nextOffset + 1, hive.allocOk⟩,
             { vc with
                 dataOffset := hive.nextOffset,
                 dataSize := regDataSizeMask data.length,
                 dataType := ty,
                 dirty := true }) := by
          simp [setValueCore, hsmall, hbig, halloc, hcc, Hive.allocCell,
                Hive.writeCell, Hive.markDirty]
        refine ⟨?_, ?_, ?_, ?_, ?_⟩
        · rw [heq]
        · intro hn
          exact absurd hn hsmall
        · intro _ _
          refine ⟨?_, ?_, ?_⟩
          · rw [heq]
            rw [findCell_updateCell_self, findCell_updateCell_self]
            simp [findCell]
          · rw [heq]
          · intro off hoff
            simp at hoff
        · intro _ hle
          exact absurd hbig (by omega)
        · intro _
          rw [heq]
          constructor
          · exact regDataInOffsetSet_of_small (regDataSizeMask data.length)
              (Nat.mod_lt _ (by norm_num))
          · have h31 : (2 : Nat) ^ 31 = 2147483648 := by norm_num
            simp only [regDataSizeMask, h31]
            simp only [h31] at hlen
            omega
      | some off =>
        have hofflt : off < hive.nextOffset := hcur off hcc
        have hne : off ≠ hive.nextOffset := by omega
        have hne' : hive.nextOffset ≠ off := by omega
        have heq : setValueCore hive vc data ty =
            (NtStatus.success,
             ⟨updateCell (updateCell
                 ((hive.nextOffset, ⟨data.length, [], false⟩) ::
                   removeCell hive.dataCells off)
                 hive.nextOffset fun r => { r with bytes := data })
                 hive.nextOffset fun r => { r with dirty := true },
              hive.nextOffset + 1, hive.allocOk⟩,
             { vc with
                 dataOffset := hive.nextOffset,
                 dataSize := regDataSizeMask data.length,
                 dataType := ty,
                 dirty := true }) := by
          simp [setValueCore, hsmall, hbig, halloc, hcc, Hive.allocCell,
                Hive.freeCell, Hive.writeCell, Hive.markDirty, removeCell, hne']
        refine ⟨?_, ?_, ?_, ?_, ?_⟩
        · rw [heq]
        · intro hn
          exact absurd hn hsmall
        · intro _ _
          refine ⟨?_, ?_, ?_⟩
          · rw [heq]
            rw [findCell_updateCell_self, findCell_updateCell_self]
            simp [findCell]
          · rw [heq]
          · intro off' hoff'
            have h9 : off = off' := Option.some.inj hoff'
            subst h9
            rw [heq]
            rw [findCell_updateCell_ne _ _ _ _ hne,
                findCell_updateCell_ne _ _ _ _ hne]
            simp only [findCell, hne']
            simp [hne']
            exact findCell_removeCell_self hive.dataCells off
        · intro _ hle
          exact absurd hbig (by omega)
        · intro _
          rw [heq]
          constructor
          · exact regDataInOffsetSet_of_small (regDataSizeMask data.length)
              (Nat.mod_lt _ (by norm_num))
          · have h31 : (2 : Nat) ^ 31 = 2147483648 := by norm_num
            simp only [regDataSizeMask, h31]
            simp only [h31] at hlen
            omega
    · cases hcc : curDataCell vc with
      | none =>
        have h0 : curDataCellSize hive vc = 0 := by
          simp [curDataCellSize, hcc]
        exfalso
        omega
      | some off =>
        have hoffeq : off = vc.dataOffset := by
          unfold curDataCell at hcc
          split at hcc
          · exact (Option.some.inj hcc).symm
          · cases hcc
        subst hoffeq
        have hsz : data.length ≤ Hive.getCellSize hive vc.dataOffset := by
          have hcs : curDataCellSize hive vc =
              Hive.getCellSize hive vc.dataOffset := by
            simp [curDataCellSize, hcc]
          omega
        have hfc : ∃ r0, findCell hive.dataCells vc.dataOffset = some r0 := by
          cases hfc0 : findCell hive.dataCells vc.dataOffset with
          | none =>
            exfalso
            have hg0 : Hive.getCellSize hive vc.dataOffset = 0 := by
              simp [Hive.getCellSize, hfc0]
            omega
          | some r0 => exact ⟨r0, rfl⟩
        obtain ⟨r0, hr0⟩ := hfc
        have heq : setValueCore hive vc data ty =
            (NtStatus.success,
             ⟨updateCell (updateCell hive.dataCells vc.dataOffset
                 fun r => { r with bytes := data })
                 vc.dataOffset fun r => { r with dirty := true },
              hive.nextOffset, hive.allocOk⟩,
             { vc with
                 dataSize := regDataSizeMask data.length,
                 dataType := ty,
                 dirty := true }) := by
          simp [setValueCore, hsmall, hbig, Hive.writeCell, Hive.markDirty]
        refine ⟨?_, ?_, ?_, ?_, ?_⟩
        · rw [heq]
        · intro hn
          exact absurd hn hsmall
        · intro _ hlt
          exact absurd hbig (by omega)
        · intro _ _
          refine ⟨?_, ?_, ?_⟩
          · rw [heq]
          · rw [heq]
          · refine ⟨r0, hr0, ?_⟩
            rw [heq]
            rw [findCell_updateCell_self, findCell_updateCell_self, hr0]
            rfl
        · intro _
          rw [heq]
          constructor
          · exact regDataInOffsetSet_of_small (regDataSizeMask data.length)
              (Nat.mod_lt _ (by norm_num))
          · have h31 : (2 : Nat) ^ 31 = 2147483648 := by norm_num
            simp only [regDataSizeMask, h31]
            simp only [h31] at hlen
            omega

/-- Witness for the amended C6: a 3-byte blob on a fresh value goes
inline with REG_DATA_IN_OFFSET set. -/
theorem ntSetValueKey_storage_policy_witness :
    regDataInOffsetSet
      (setValueCore ⟨[], 0, true⟩ ⟨0, 0, 0, false⟩ [1, 2, 3] 1).2.2.dataSize =
      true :=
  ((ntSetValueKey_storage_policy ⟨[], 0, true⟩ ⟨0, 0, 0, false⟩ [1, 2, 3] 1
      rfl (by norm_num)
      (by
        intro off h
        simp [curDataCell, regDataInOffsetSet, regDataSizeMask] at h)).2.1
    (by decide)).2.1

/-- NtSetValueKey dispatcher outcome: the status returned to the caller,
the status handed to the post-callback, and the resulting hive and value
cell. -/
structure SetValueKeyOutcome where
  ret : NtStatus
  postStatus : NtStatus
  hive : Hive
  valueCell : CmKeyValue
  deriving DecidableEq

/-- NtSetValueKey after handle validation (lines 1998-2005 and onward):
a failing pre-callback short-circuits - the storage operation is
skipped, the post-callback is still invoked carrying the pre-callback's
status, and that status is returned.  Otherwise the storage decision
runs and its status goes to both the post-callback and the caller. -/
def ntSetValueKeyDispatch (preStatus : NtStatus) (hive : Hive)
    (vc : CmKeyValue) (data : List Nat) (ty : Nat) : SetValueKeyOutcome :=
  if ntSuccess preStatus = false then
    ⟨preStatus, preStatus, hive, vc⟩
  else
    let r := setValueCore hive vc data ty
    ⟨r.1, r.1, r.2.1, r.2.2⟩

/-- Claim C7: when the pre-callback returns a non-success status, the
operation is skipped (hive and targeted value cell unchanged), the
post-callback is still invoked carrying that failure status, and that
status is what the caller receives. -/
theorem preCallback_failure_short_circuits (preStatus : NtStatus)
    (hive : Hive) (vc : CmKeyValue) (data : List Nat) (ty : Nat)
    (h : ntSuccess preStatus = false) :
    ntSetValueKeyDispatch preStatus hive vc data ty =
      ⟨preStatus, preStatus, hive, vc⟩ := by
  simp [ntSetValueKeyDispatch, h]

/-- Witness for C7: a pre-callback failing with STATUS_ACCESS_DENIED is
propagated both to the post-callback and to the caller, with registry
state untouched. -/
theorem preCallback_failure_short_circuits_witness :
    ntSetValueKeyDispatch NtStatus.accessDenied ⟨[], 0, true⟩
        ⟨0, 0, 0, false⟩ [1, 2] 4 =
      ⟨NtStatus.accessDenied, NtStatus.accessDenied, ⟨[], 0, true⟩,
       ⟨0, 0, 0, false⟩⟩ :=
  preCallback_failure_short_circuits NtStatus.accessDenied ⟨[], 0, true⟩
    ⟨0, 0, 0, false⟩ [1, 2] 4 (by decide)
